import Mathlib

/-!
Verification of the pandas-cleaner detector framework.

This file gives a shallow embedding of the detection core of the
`pdcleaner` package (files `detection/_base.py`, `detection/basic.py`,
`detection/gaussian.py`, `detection/values.py`, `detection/strings.py`,
`detection/multivariate.py`, `detection/by_category.py`) and settles the
specification claims about it.

Modelling conventions:
* Python floats are modelled by `F`, rationals extended with `nan`,
  `inf` and `ninf`; comparisons follow IEEE semantics (every comparison
  with `nan` is false).
* A pandas Series is a list of `(row key, value)` pairs; a missing value
  (`NaN` in a data slot) is `Option.none`.
* External numeric collaborators (scipy `normaltest`, `boxcox`,
  `yeojohnson`, numpy float power and exp, sklearn DBSCAN, pandas
  `std`) are taken as parameters, following the spec (sections 1 and 6)
  which treats them as external collaborators that are not implemented
  in this repository.
* Exceptions are modelled with `Except Err`; warnings are not errors
  and are not modelled.
-/

set_option allowUnsafeReducibility true
attribute [semireducible] Rat.add Rat.sub Rat.mul Rat.inv Rat.ofScientific

namespace PdCleaner

/-- Decidable equality of constructor results. -/
instance {ε α : Type} [DecidableEq ε] [DecidableEq α] :
    DecidableEq (Except ε α) := fun a b =>
  match a, b with
  | .ok x, .ok y =>
    if h : x = y then isTrue (by rw [h])
    else isFalse (by intro he; cases he; exact h rfl)
  | .error e, .error f =>
    if h : e = f then isTrue (by rw [h])
    else isFalse (by intro he; cases he; exact h rfl)
  | .ok _, .error _ => isFalse (by intro he; cases he)
  | .error _, .ok _ => isFalse (by intro he; cases he)

/-- Errors raised by detector constructors and evaluation
(`TypeError`, `ValueError`, bare `Exception`). -/
inductive Err where
  | typeError
  | valueError
  | exceptionError
deriving DecidableEq, Repr

/-- Model of a Python float: rationals extended with `nan`, `-inf`, `inf`. -/
inductive F where
  | nan
  | ninf
  | fin (q : ℚ)
  | inf
deriving DecidableEq, Repr

namespace F

/-- IEEE `<=` on floats: any comparison involving `nan` is false. -/
def fle : F → F → Bool
  | nan, _ => false
  | _, nan => false
  | ninf, _ => true
  | _, inf => true
  | fin p, fin q => p ≤ q
  | fin _, ninf => false
  | inf, _ => false

/-- IEEE `<` on floats: any comparison involving `nan` is false. -/
def flt : F → F → Bool
  | nan, _ => false
  | _, nan => false
  | ninf, ninf => false
  | ninf, _ => true
  | fin p, fin q => p < q
  | fin _, inf => true
  | fin _, ninf => false
  | inf, _ => false

/-- IEEE `>=`, as used by `self._lower >= self._upper` in the source. -/
def fge (a b : F) : Bool := fle b a

/-- Model of `np.isinf` (false on `nan`). -/
def isinf : F → Bool
  | inf => true
  | ninf => true
  | _ => false

/-- Model of `np.isnan`. -/
def isnan : F → Bool
  | nan => true
  | _ => false

/-- IEEE negation. -/
def neg : F → F
  | nan => nan
  | inf => ninf
  | ninf => inf
  | fin q => fin (-q)

/-- IEEE addition (`inf + -inf = nan`, `nan` propagates). -/
def add : F → F → F
  | nan, _ => nan
  | _, nan => nan
  | inf, ninf => nan
  | ninf, inf => nan
  | inf, _ => inf
  | _, inf => inf
  | ninf, _ => ninf
  | _, ninf => ninf
  | fin p, fin q => fin (p + q)

/-- IEEE subtraction. -/
def sub (a b : F) : F := add a (neg b)

/-- IEEE multiplication (`0 * inf = nan`, `nan` propagates). -/
def mul : F → F → F
  | nan, _ => nan
  | _, nan => nan
  | fin p, fin q => fin (p * q)
  | inf, inf => inf
  | inf, ninf => ninf
  | ninf, inf => ninf
  | ninf, ninf => inf
  | fin p, inf => if p = 0 then nan else if 0 < p then inf else ninf
  | fin p, ninf => if p = 0 then nan else if 0 < p then ninf else inf
  | inf, fin p => if p = 0 then nan else if 0 < p then inf else ninf
  | ninf, fin p => if p = 0 then nan else if 0 < p then ninf else inf

end F

/-- Boundary-inclusion policy of the bound detectors
(`inclusive` in {"both", "neither", "left", "right"}). -/
inductive Inclusive where
  | both
  | neither
  | left
  | right
deriving DecidableEq, Repr

/-- Sidedness policy (`sided` in {"both", "left", "right"}). -/
inductive Sided where
  | both
  | left
  | right
deriving DecidableEq, Repr

/-- A pandas Series: row keys paired with values; `none` is a missing
value (NaN slot). Row keys are unique in a well-formed frame but the
model does not assume it. -/
abbrev Series (α : Type) := List (ℕ × Option α)

/-- Row keys of a series (`obj.index`). -/
def seriesKeys {α : Type} (data : Series α) : List ℕ := data.map Prod.fst

/-! ### DetectorBase (`detection/_base.py`)

`is_error` / `not_error` build boolean masks over the queried object's
index by membership in the flagged index; `n_errors` is the length of
the flagged index and `has_errors` is `any(is_error())`. -/

/-- Shared observable state of a detector: the queried object's row keys
and the flagged index. -/
structure DetState where
  objKeys : List ℕ
  flagged : List ℕ
deriving DecidableEq, Repr

namespace DetState

/-- Model of `_Detector.is_error`: membership mask over the queried
object's keys. -/
def is_error (s : DetState) : List (ℕ × Bool) :=
  s.objKeys.map fun k => (k, s.flagged.contains k)

/-- Model of `_Detector.not_error`: negated membership mask. -/
def not_error (s : DetState) : List (ℕ × Bool) :=
  s.objKeys.map fun k => (k, !s.flagged.contains k)

/-- Model of `_Detector.n_errors = len(self.index)`. -/
def n_errors (s : DetState) : ℕ := s.flagged.length

/-- Model of `_Detector.has_errors() = any(self.is_error())`. -/
def has_errors (s : DetState) : Bool :=
  s.is_error.any fun p => p.2

end DetState

/-! ### The `bounded` detector (`detection/basic.py`, class `bounded`) -/

/-- Fitted/configured state of the `bounded` detector: raw `_lower`,
`_upper`, `_inclusive`, `_sided` attributes. -/
structure BoundedDetector where
  lowerRaw : F
  upperRaw : F
  inclusive : Inclusive
  sided : Sided
deriving DecidableEq, Repr

namespace BoundedDetector

/-- Property `bounded.lower`: `-inf` when `sided == "right"`. -/
def lower (d : BoundedDetector) : F :=
  if d.sided = .right then F.ninf else d.lowerRaw

/-- Property `bounded.upper`: `inf` when `sided == "left"`. -/
def upper (d : BoundedDetector) : F :=
  if d.sided = .left then F.inf else d.upperRaw

/-- Shared tail of `bounded.__init__`: raise `ValueError` when
`self._lower >= self._upper` (IEEE comparison, so false when either
bound is `nan`). -/
def check (l u : F) : Except Err Unit :=
  if F.fge l u then .error .valueError else .ok ()

/-- Model of `bounded.__init__` in fit mode (`detector_obj=None`):
store the user-supplied bounds, `sided = "both"`, then validate. -/
def mkFit (lo up : F) (inc : Inclusive) : Except Err BoundedDetector :=
  match check lo up with
  | .error e => .error e
  | .ok _ => .ok ⟨lo, up, inc, .both⟩

/-- Model of `bounded.__init__` in clone mode: copy `lower`, `upper`,
`inclusive`, `sided` from the source detector (through its properties),
then run the same validation. -/
def mkClone (src : BoundedDetector) : Except Err BoundedDetector :=
  match check src.lower src.upper with
  | .error e => .error e
  | .ok _ => .ok ⟨src.lower, src.upper, src.inclusive, src.sided⟩

/-- Per-row error mask of `bounded.index`: the range test with the
configured inclusion policy (IEEE comparisons, hence false on a missing
value), followed by the `mask[self._obj.isna()] = False` override. -/
def mask (d : BoundedDetector) (v : Option ℚ) : Bool :=
  let inRange : Bool :=
    match v with
    | none => false
    | some x =>
      match d.inclusive with
      | .both => F.fle d.lower (.fin x) && F.fle (.fin x) d.upper
      | .neither => F.flt d.lower (.fin x) && F.flt (.fin x) d.upper
      | .left => F.fle d.lower (.fin x) && F.flt (.fin x) d.upper
      | .right => F.flt d.lower (.fin x) && F.fle (.fin x) d.upper
  match v with
  | none => false
  | some _ => !inRange

/-- Model of `bounded.index`: keys of the rows whose mask is set. -/
def index (d : BoundedDetector) (data : Series ℚ) : List ℕ :=
  (data.filter fun r => mask d r.2).map Prod.fst

end BoundedDetector

/-! ### Quantiles (pandas `Series.quantile`, linear interpolation)

The tabular collaborator's quantile: drop missing values, sort, and
interpolate linearly at position `q * (n - 1)`. -/

/-- Insert into a sorted list of rationals. -/
def insertSorted (x : ℚ) : List ℚ → List ℚ
  | [] => [x]
  | y :: ys => if x ≤ y then x :: y :: ys else y :: insertSorted x ys

/-- Sort a list of rationals ascending (insertion sort). -/
def sortQ (l : List ℚ) : List ℚ := l.foldr insertSorted []

/-- Linear-interpolation quantile of a list of non-missing values,
as computed by pandas with the default `interpolation="linear"`;
`nan` on an empty list. -/
def quantileLinear (xs : List ℚ) (q : ℚ) : F :=
  match xs with
  | [] => F.nan
  | _ :: _ =>
    let s := sortQ xs
    let n : ℚ := (s.length : ℚ)
    let pos : ℚ := q * (n - 1)
    let i : ℕ := Int.toNat ⌊pos⌋
    let g : ℚ := pos - (⌊pos⌋ : ℚ)
    let vi := s.getD i 0
    let vj := s.getD (i + 1) 0
    F.fin (vi + g * (vj - vi))

/-- Minimum of a series of values, skipping missing values
(pandas `Series.min`); `nan` when no value remains. -/
def seriesMin (vals : List (Option ℚ)) : F :=
  match (vals.filterMap id) with
  | [] => F.nan
  | x :: xs => F.fin (xs.foldl min x)

/-! ### The `quantiles` detector (`detection/basic.py`, class `quantiles`) -/

/-- Fitted state of the `quantiles` detector: the quantile fractions
plus the inherited `bounded` state holding the resolved bounds. -/
structure QuantilesDetector where
  lowerq : ℚ
  upperq : ℚ
  bnd : BoundedDetector
deriving DecidableEq, Repr

namespace QuantilesDetector

/-- Model of `quantiles.__init__` in fit mode: the parent
`bounded.__init__` runs with `lower=upper=nan` (its `>=` check is
vacuous on `nan`), the bounds are the data quantiles at the given
fractions, and only `lowerq >= upperq` is rejected. The resolved
bounds themselves are never validated. -/
def mkFit (data : Series ℚ) (lowerq upperq : ℚ) (inc : Inclusive) :
    Except Err QuantilesDetector :=
  match BoundedDetector.check F.nan F.nan with
  | .error e => .error e
  | .ok _ =>
    let vals := (data.map Prod.snd).filterMap id
    let lo := quantileLinear vals lowerq
    let up := quantileLinear vals upperq
    if upperq ≤ lowerq then .error .valueError
    else .ok ⟨lowerq, upperq, ⟨lo, up, inc, .both⟩⟩

/-- Model of `quantiles.__init__` in clone mode: all parameters are
copied from the source (bounds through the `lower`/`upper` properties),
nothing is recomputed from the new data. -/
def mkClone (src : QuantilesDetector) : Except Err QuantilesDetector :=
  match BoundedDetector.check F.nan F.nan with
  | .error e => .error e
  | .ok _ =>
    if src.upperq ≤ src.lowerq then .error .valueError
    else .ok ⟨src.lowerq, src.upperq,
        ⟨src.bnd.lower, src.bnd.upper, src.bnd.inclusive, src.bnd.sided⟩⟩

/-- Model of the inherited `bounded.index`. -/
def index (d : QuantilesDetector) (data : Series ℚ) : List ℕ :=
  BoundedDetector.index d.bnd data

end QuantilesDetector

/-! ### Gaussian detectors (`detection/gaussian.py`)

The scipy primitives are external collaborators (spec section 6):
the normality-test p-value, the `boxcox`/`yeojohnson` fits (returning
the transformed series and the fitted lambda) and the float power and
exponential used by the analytic inverses are all parameters of the
embedding, bundled in `Ext`. -/

/-- Power-transform choice (`transform` in {None, "boxcox", "yeojohnson"}). -/
inductive Transform where
  | boxcox
  | yeojohnson
deriving DecidableEq, Repr

/-- Behaviour on a failed normality test
(`normaltest` in {"ignore", "warn", "error"}). -/
inductive NormalPolicy where
  | ignore
  | warn
  | error
deriving DecidableEq, Repr

/-- External numeric collaborators used by the gaussian detectors:
`pval` is the p-value `scipy.stats.normaltest` returns on the series
at hand, `box`/`yeo` are the scipy power-transform fits returning the
transformed series and the fitted lambda, `pw` is the numpy float
power `x ** e` and `expF` is `np.exp`. -/
structure Ext where
  pval : ℚ
  box : List (Option ℚ) → (List (Option ℚ) × ℚ)
  yeo : List (Option ℚ) → (List (Option ℚ) × ℚ)
  pw : F → ℚ → F
  expF : F → F

/-- Shift applied before Box-Cox (`x + 1 - self._obj.min()`), so that
the transformed input is positive. -/
def boxcoxShift (vals : List (Option ℚ)) : List (Option ℚ) :=
  match seriesMin vals with
  | F.fin m => vals.map (Option.map fun q => q + (1 - m))
  | _ => vals.map fun _ => none

/-- Model of `self._transformations[...]`: Box-Cox is fitted on the
shifted series, Yeo-Johnson on the series itself. -/
def applyTransform (ext : Ext) (t : Transform) (vals : List (Option ℚ)) :
    List (Option ℚ) × ℚ :=
  match t with
  | .boxcox => ext.box (boxcoxShift vals)
  | .yeojohnson => ext.yeo vals

/-- Model of `_inverse_boxcox`: `exp(xt) - shift` when lambda is 0,
otherwise `(xt * lambda + 1) ** (1 / lambda) - shift`. -/
def invBoxcox (ext : Ext) (xt shift : F) (lam : ℚ) : F :=
  if lam = 0 then F.sub (ext.expF xt) shift
  else F.sub (ext.pw (F.add (F.mul xt (F.fin lam)) (F.fin 1)) (1 / lam)) shift

/-- Model of `_inverse_yeojohnson` (four branches on the sign of the
input and the value of lambda; `nan` input propagates to `nan`). -/
def invYeo (ext : Ext) (xt : F) (lam : ℚ) : F :=
  if F.fge xt (F.fin 0) then
    if lam = 0 then F.sub (ext.expF xt) (F.fin 1)
    else F.sub (ext.pw (F.add (F.mul xt (F.fin lam)) (F.fin 1)) (1 / lam)) (F.fin 1)
  else if F.flt xt (F.fin 0) then
    if lam = 2 then F.sub (F.fin 1) (ext.expF (F.neg xt))
    else F.sub (F.fin 1)
      (ext.pw (F.add (F.neg (F.mul (F.fin (2 - lam)) xt)) (F.fin 1)) (1 / (2 - lam)))
  else F.nan

/-- Model of `self._inverse_tranf[...]`: the Box-Cox inverse uses the
shift `1 - self._obj.min()` of the constructor's own series. -/
def invTransform (ext : Ext) (t : Transform) (vals : List (Option ℚ)) (lam : ℚ)
    (x : F) : F :=
  match t with
  | .boxcox => invBoxcox ext x (F.sub (F.fin 1) (seriesMin vals)) lam
  | .yeojohnson => invYeo ext x lam

/-- Configured parameters shared by the gaussian detectors
(`threshold`, `inclusive`, `sided`, `normaltest`, `pvalue`, `transform`). -/
structure GaussianCfg where
  threshold : ℚ
  inclusive : Inclusive
  sided : Sided
  normaltest : NormalPolicy
  pvalue : ℚ
  transform : Option Transform
deriving DecidableEq, Repr

/-- Model of the fit branch of `_GaussianSeriesDetector.__init__`:
validate `pvalue` and `threshold`, run the normality test only when the
series has more than 8 rows (otherwise the series counts as non-normal),
raise when the policy is `error` and the test failed, and fit the
requested power transform only when the data is not normal. Returns
`isnormal` and the optional `(transformed series, lambda)` pair. -/
def gaussianBaseFit (cfg : GaussianCfg) (vals : List (Option ℚ)) (ext : Ext) :
    Except Err (Bool × Option (List (Option ℚ) × ℚ)) :=
  match BoundedDetector.check F.nan F.nan with
  | .error e => .error e
  | .ok _ =>
    if cfg.pvalue ≤ 0 then .error .valueError
    else
      let isnormal : Bool :=
        if 8 < vals.length then decide (cfg.pvalue < ext.pval) else false
      if cfg.threshold < 0 then .error .valueError
      else if isnormal = false ∧ cfg.normaltest = .error then .error .exceptionError
      else
        let tl : Option (List (Option ℚ) × ℚ) :=
          match cfg.transform, isnormal with
          | some t, false => some (applyTransform ext t vals)
          | _, _ => none
        .ok (isnormal, tl)

/-- Fitted state of the `iqr` detector (`IqrSeriesDetector`). -/
structure IqrDetector where
  cfg : GaussianCfg
  isnormal : Bool
  lmbda : Option ℚ
  q25 : F
  q75 : F
  iqrv : F
  lowerRaw : F
  upperRaw : F
deriving DecidableEq, Repr

namespace IqrDetector

/-- View of the inherited `bounded` state (bounds, inclusion, side). -/
def asBounded (d : IqrDetector) : BoundedDetector :=
  ⟨d.lowerRaw, d.upperRaw, d.cfg.inclusive, d.cfg.sided⟩

/-- Property `lower` inherited from `bounded`. -/
def lower (d : IqrDetector) : F := d.asBounded.lower

/-- Property `upper` inherited from `bounded`. -/
def upper (d : IqrDetector) : F := d.asBounded.upper

/-- Model of `IqrSeriesDetector.__init__` in fit mode: quartiles are
taken from the raw series when no transform applies (no transform
requested, or data tested normal), else from the transformed series;
`lower`/`upper` are `Q25 - t * IQR` and `Q75 + t * IQR`, mapped back
through the analytic inverse (with `nan` clamped to the infinities)
exactly when a transform was requested and the data is not normal. -/
def mkFit (data : Series ℚ) (cfg : GaussianCfg) (ext : Ext) :
    Except Err IqrDetector :=
  let vals := data.map Prod.snd
  match gaussianBaseFit cfg vals ext with
  | .error e => .error e
  | .ok r =>
  let isnormal := r.1
  let tl := r.2
  let lmbda : Option ℚ := tl.map Prod.snd
  let fitVals : List (Option ℚ) :=
    if cfg.transform = none ∨ isnormal = true then vals else (tl.map Prod.fst).getD []
  let q25 := quantileLinear (fitVals.filterMap id) (1 / 4)
  let q75 := quantileLinear (fitVals.filterMap id) (3 / 4)
  let iqrv := F.sub q75 q25
  let w := F.mul (F.fin cfg.threshold) iqrv
  let lower0 := F.sub q25 w
  let upper0 := F.add q75 w
  let inv : F → F := fun x =>
    invTransform ext (cfg.transform.getD .boxcox) vals (lmbda.getD 0) x
  let lower1 :=
    if cfg.transform ≠ none ∧ isnormal = false then
      (if (inv lower0).isnan then F.ninf else inv lower0)
    else lower0
  let upper1 :=
    if cfg.transform ≠ none ∧ isnormal = false then
      (if (inv upper0).isnan then F.inf else inv upper0)
    else upper0
  .ok ⟨cfg, isnormal, lmbda, q25, q75, iqrv, lower1, upper1⟩

/-- Model of `IqrSeriesDetector.__init__` in clone mode
(`series.cleaner.detect(existing_detector)`, which passes no keyword
arguments, so every constructor argument keeps its default — in
particular the `transform` argument is `None`). The configured
parameters, `isnormal` and the quartiles are copied from the source;
the copied `threshold` and the `normaltest` policy are re-checked; the
base class refits the power transform on the new series when the copied
`transform` is set and the copied `isnormal` is false; and the bound
inversion block is skipped because its guard tests the `transform`
argument (which is `None`), not the copied attribute. -/
def mkClone (data : Series ℚ) (src : IqrDetector) (ext : Ext) :
    Except Err IqrDetector :=
  match BoundedDetector.check F.nan F.nan with
  | .error e => .error e
  | .ok _ =>
  let cfg := src.cfg
  let isnormal := src.isnormal
  if cfg.threshold < 0 then .error .valueError
  else if isnormal = false ∧ cfg.normaltest = .error then .error .exceptionError
  else
  let vals := data.map Prod.snd
  let tl : Option (List (Option ℚ) × ℚ) :=
    match cfg.transform, isnormal with
    | some t, false => some (applyTransform ext t vals)
    | _, _ => none
  let lmbda : Option ℚ := tl.map Prod.snd
  let q25 := src.q25
  let q75 := src.q75
  let iqrv := F.sub q75 q25
  let w := F.mul (F.fin cfg.threshold) iqrv
  .ok ⟨cfg, isnormal, lmbda, q25, q75, iqrv, F.sub q25 w, F.add q75 w⟩

/-- Model of the inherited `bounded.index`. -/
def index (d : IqrDetector) (data : Series ℚ) : List ℕ :=
  BoundedDetector.index d.asBounded data

end IqrDetector

/-! ### The `value` detector (`detection/values.py`, class `value`)

Its elements are Python objects; the detector compares them with the
CPython `is` operator when `check_type` is set. `Series.apply` first
converts the backing array with `astype(object)`: int64 entries box to
Python ints (identical to an equal literal exactly when CPython caches
the value, i.e. on [-5, 256]), float64 entries box to fresh float
objects (never identical to the user-supplied value object), and string
literals are interned. -/

/-- A Python scalar as it occurs in a series or as a configured value. -/
inductive PyVal where
  | pint (i : ℤ)
  | pfloat (q : ℚ)
  | pstr (s : String)
deriving DecidableEq, Repr

/-- Model of the CPython `is` comparison between a boxed series element
and the configured value (see the section comment): equal small ints
are the same cached object, equal interned string literals are the same
object, a boxed float is never the same object as the configured value. -/
def pyIs : PyVal → PyVal → Bool
  | .pint i, .pint j => i = j && -5 ≤ i && i ≤ 256
  | .pstr s, .pstr t => s = t
  | _, _ => false

/-- Model of the Python `==` comparison between two scalars: numeric
equality across int and float, string equality on strings. -/
def pyEq : PyVal → PyVal → Bool
  | .pint i, .pint j => i = j
  | .pint i, .pfloat q => (i : ℚ) = q
  | .pfloat q, .pint j => q = (j : ℚ)
  | .pfloat p, .pfloat q => p = q
  | .pstr s, .pstr t => s = t
  | _, _ => false

/-- Predicate written from the spec wording for claim C8 ("equal to the
configured value with an identical type", so that 5 and 5.0 are
distinguished); compared against the source's `is`-based test. -/
def sameTypeEq : PyVal → PyVal → Bool
  | .pint i, .pint j => i = j
  | .pfloat p, .pfloat q => p = q
  | .pstr s, .pstr t => s = t
  | _, _ => false

/-- Configured state of the `value` detector. -/
structure ValueDetector where
  value : PyVal
  checkType : Bool
  forbidden : Bool
deriving DecidableEq, Repr

namespace ValueDetector

/-- Model of `value.__init__` in fit mode: a missing `value` argument
is rejected. -/
def mkFit (value : Option PyVal) (checkType forbidden : Bool) :
    Except Err ValueDetector :=
  match value with
  | none => .error .valueError
  | some v => .ok ⟨v, checkType, forbidden⟩

/-- Per-row mask of `value.index`: identity test (`x is value`) under
`check_type`, else equality test; negated; inverted again under
`forbidden`; and the missing-value override last. -/
def mask (d : ValueDetector) (v : Option PyVal) : Bool :=
  match v with
  | none => false
  | some x =>
    let eqv := if d.checkType then pyIs x d.value else pyEq x d.value
    let m := !eqv
    if d.forbidden then !m else m

/-- Model of `value.index`. -/
def index (d : ValueDetector) (data : Series PyVal) : List ℕ :=
  (data.filter fun r => mask d r.2).map Prod.fst

end ValueDetector

/-! ### The `duplicated` detector (`detection/basic.py`, class `duplicated`) -/

/-- Helper for `duplicatedIndex`: walk the series keeping the set of
values already seen. -/
def dupGo {α : Type} [DecidableEq α] (seen : List (Option α)) :
    Series α → List ℕ
  | [] => []
  | (k, v) :: rest =>
    if v ∈ seen then k :: dupGo seen rest else dupGo (v :: seen) rest

/-- Model of `duplicated.index` on a Series with the default
`keep="first"`: a row is flagged when an earlier row holds the same
value. pandas `duplicated` hashes a missing value like any other value
(two NaN rows are duplicates of each other) and, unlike the bound and
string detectors, this class applies no missing-value override. -/
def duplicatedIndex {α : Type} [DecidableEq α] (data : Series α) : List ℕ :=
  dupGo [] data

/-! ### The `keycollision` detector (`detection/strings.py`)

The fingerprint pipeline of `keycollision.fingerprints`: fill missing
with the empty string, replace a leading `^.{2}:` match by a space,
strip, lowercase, NFKD-normalize and drop non-ASCII (which strips
diacritics; on ASCII input the normalization is the identity, and the
inputs of this development are ASCII), replace every non-letter by a
space, collapse space runs, split on single spaces, deduplicate keeping
the first occurrence, sort, join with single spaces, strip. -/

/-- Python whitespace as stripped by `str.strip`. -/
def isPyWS (c : Char) : Bool :=
  c = ' ' ∨ c = '\t' ∨ c = '\n' ∨ c = '\r' ∨ c = '\x0b' ∨ c = '\x0c'

/-- Model of `str.strip()`: drop whitespace from both ends. -/
def trimChars (l : List Char) : List Char :=
  ((l.dropWhile isPyWS).reverse.dropWhile isPyWS).reverse

/-- ASCII letter. -/
def isEngLetter (c : Char) : Bool :=
  ('a' ≤ c ∧ c ≤ 'z') ∨ ('A' ≤ c ∧ c ≤ 'Z')

/-- Model of `str.lower` on ASCII input. -/
def lowerChar (c : Char) : Char :=
  if 'A' ≤ c ∧ c ≤ 'Z' then Char.ofNat (c.toNat + 32) else c

/-- Model of `.str.replace("^.{2}:", " ", regex=True)`: an anchored
match of two non-newline characters and a colon is replaced by one
space (at most one match since the pattern is anchored). -/
def stripPrefix2Colon (cs : List Char) : List Char :=
  match cs with
  | a :: b :: c :: rest =>
    if c = ':' ∧ a ≠ '\n' ∧ b ≠ '\n' then ' ' :: rest else a :: b :: c :: rest
  | l => l

/-- Model of `.str.normalize("NFKD").str.encode("ASCII","ignore")
.str.decode("utf-8")` on ASCII-compatible input: characters outside
ASCII are dropped (this is what strips diacritics; on the ASCII inputs
of this development the normalization itself is the identity). -/
def keepAscii (cs : List Char) : List Char :=
  cs.filter fun c => c.toNat < 128

/-- Model of `.str.replace("[^a-zA-Z]", " ", regex=True)`. -/
def spaceNonLetters (cs : List Char) : List Char :=
  cs.map fun c => if isEngLetter c then c else ' '

/-- Model of `.str.replace(" +", " ", regex=True)`: the flag records
whether the previous kept character was a space. -/
def collapseSpacesAux : Bool → List Char → List Char
  | _, [] => []
  | prev, c :: rest =>
    if c = ' ' then
      (if prev then collapseSpacesAux true rest
       else ' ' :: collapseSpacesAux true rest)
    else c :: collapseSpacesAux false rest

/-- Model of `.str.split(" ")` (Python `str.split` with an explicit
single-space separator: non-collapsing, so `""` splits to `[""]`). -/
def splitOnSpace : List Char → List (List Char)
  | [] => [[]]
  | c :: rest =>
    let r := splitOnSpace rest
    if c = ' ' then [] :: r
    else
      match r with
      | h :: t => (c :: h) :: t
      | [] => [[c]]

/-- Model of `" ".join(...)`. -/
def joinSpace : List (List Char) → List Char
  | [] => []
  | [x] => x
  | x :: xs => x ++ ' ' :: joinSpace xs

/-- Deduplicate keeping first occurrences (`dict.fromkeys`). -/
def dedupFirst {α : Type} [DecidableEq α] (l : List α) : List α :=
  l.foldl (fun acc x => if x ∈ acc then acc else acc ++ [x]) []

/-- Strict lexicographic order on code points, matching Python string
comparison. -/
def charListLt : List Char → List Char → Bool
  | [], [] => false
  | [], _ :: _ => true
  | _ :: _, [] => false
  | a :: as, b :: bs =>
    if a.toNat < b.toNat then true
    else if b.toNat < a.toNat then false
    else charListLt as bs

/-- Non-strict companion of `charListLt`. -/
def tokLe (a b : List Char) : Bool := !(charListLt b a)

/-- Insert into a sorted list of tokens. -/
def insertSortedTok (x : List Char) : List (List Char) → List (List Char)
  | [] => [x]
  | y :: ys => if tokLe x y then x :: y :: ys else y :: insertSortedTok x ys

/-- Sort tokens ascending (Python `sorted`). -/
def sortToks (l : List (List Char)) : List (List Char) := l.foldr insertSortedTok []

/-- Model of `keycollision.fingerprints` on one element: fill missing
with the empty string, strip an anchored two-character-plus-colon
prefix, strip, lowercase, strip diacritics / non-ASCII, replace
non-letters by spaces, collapse space runs, split on spaces,
deduplicate and sort the tokens, join with single spaces, strip. -/
def fingerprint (v : Option String) : String :=
  let cs := (match v with | none => "" | some s => s).data
  let cs := trimChars (stripPrefix2Colon cs)
  let cs := keepAscii (cs.map lowerChar)
  let cs := collapseSpacesAux false (spaceNonLetters cs)
  let toks := sortToks (dedupFirst (splitOnSpace cs))
  String.mk (trimChars (joinSpace toks))

/-- Model of `astype(str)` on a series element: a missing value prints
as the string "nan". -/
def origStr (v : Option String) : String :=
  match v with
  | none => "nan"
  | some s => s

/-- Number of occurrences of a string in a list. -/
def countOcc (l : List String) (s : String) : ℕ :=
  (l.filter fun t => t = s).length

/-- Most frequent element of a list (`value_counts().idxmax()`), with
first appearance breaking ties (pandas does not pin the tie order; the
claims settled here are tie-free). -/
def mostFreq (l : List String) : String :=
  match dedupFirst l with
  | [] => ""
  | x :: xs => xs.foldl (fun best y => if countOcc l best < countOcc l y then y else best) x

/-- Rows of the `DataFrame({"orig": obj.astype(str), "keys": keys})`
built by `keycollision.dict_keys`. -/
def kcRows (data : Series String) : List (String × String) :=
  data.map fun r => (fingerprint r.2, origStr r.2)

/-- Canonical representative of a fingerprint key: the most frequent
original value among the rows sharing that key
(`groupby("keys").agg(lambda s: s.value_counts().idxmax())`). -/
def canonForKey (data : Series String) (key : String) : String :=
  mostFreq (((kcRows data).filter fun r => r.1 = key).map Prod.snd)

/-- Model of `keycollision.dict_keys`: every fingerprint key occurring
in the series maps to the canonical representative of its group (the
result is a finite mapping; pandas iterates the groups in sorted key
order, this model in first-appearance order, the same mapping). -/
def dictKeys (data : Series String) : List (String × String) :=
  (dedupFirst ((kcRows data).map Prod.fst)).map fun k => (k, canonForKey data k)

/-- First-match association lookup (`Series.map` through a dict:
an absent key yields `NaN`, modelled by `none`). -/
def lookupKey : List (String × String) → String → Option String
  | [], _ => none
  | (k, v) :: rest, q => if k = q then some v else lookupKey rest q

/-- Per-row mask of `keycollision.index`: the row's fingerprint key is
mapped through the stored dictionary; the value is compared with `ne`
(and a value always differs from the `NaN` an absent key maps to); the
missing-value override comes last. -/
def kcMask (dict : List (String × String)) (v : Option String) : Bool :=
  match v with
  | none => false
  | some s =>
    match lookupKey dict (fingerprint (some s)) with
    | none => true
    | some c => decide (s ≠ c)

/-- Model of `keycollision.index` given the stored dictionary. -/
def kcIndex (dict : List (String × String)) (data : Series String) : List ℕ :=
  (data.filter fun r => kcMask dict r.2).map Prod.fst

/-- Model of `keycollision` in fit mode: the stored dictionary is
computed from the fitted series itself. -/
def kcFitIndex (data : Series String) : List ℕ :=
  kcIndex (dictKeys data) data

/-! ### Multivariate and category-partition detectors
(`detection/multivariate.py`, `detection/by_category.py`)

Both reject clone mode at construction. The default `eps` of `outliers`
is the maximum standard deviation among the standardized columns, a
quantity obtained from the tabular collaborator (spec section 6) and
passed here as a parameter. -/

/-- Fitted state of the `outliers` detector. -/
structure OutliersDetector where
  eps : F
  minSamples : ℤ
deriving DecidableEq, Repr

/-- Model of `outliers.__init__`: any existing detector passed as input
raises `ValueError`; otherwise `eps` defaults to the collaborator-computed
maximum standardized column std. -/
def outliersMk (src : Option DetState) (eps : Option F) (minSamples : ℤ)
    (stdmaxDefault : F) : Except Err OutliersDetector :=
  match src with
  | some _ => .error .valueError
  | none => .ok ⟨eps.getD stdmaxDefault, minSamples⟩

/-- Configured state of the `by_category` detector. -/
structure ByCategoryDetector where
  method : String
deriving DecidableEq, Repr

/-- Model of `ByCategoryDataFrameDetector.__init__`: any existing
detector passed as input raises `ValueError`; otherwise the method name
is stored and each category group is fitted freshly at evaluation. -/
def byCategoryMk (src : Option DetState) (method : String) :
    Except Err ByCategoryDetector :=
  match src with
  | some _ => .error .valueError
  | none => .ok ⟨method⟩

/-! ### Concrete instances used by the claims -/

/-- Series `[0, 0, 0, 100, -1, 1, -1, 1, -6, 6]` of spec section 8. -/
def dataC6 : Series ℚ :=
  [(0, some 0), (1, some 0), (2, some 0), (3, some 100), (4, some (-1)),
   (5, some 1), (6, some (-1)), (7, some 1), (8, some (-6)), (9, some 6)]

/-- Configuration `iqr(threshold=2.0)` with all other arguments at
their defaults. -/
def cfgC6 : GaussianCfg := ⟨2, .both, .both, .ignore, 1 / 1000, none⟩

/-- Series `[1, 2, 100, 4]` of spec section 8. -/
def dataC7 : Series ℚ := [(0, some 1), (1, some 2), (2, some 100), (3, some 4)]

/-- Concrete instantiation of the external collaborators: the
normality test returns p-value 1, the power-transform fits return the
series unchanged with fitted lambda 1 (a behaviour on which the
analytic Box-Cox inverse is exact, since `x ** 1.0 = x` holds exactly
in IEEE arithmetic, captured by the power function below). -/
def extId : Ext :=
  ⟨1, fun l => (l, 1), fun l => (l, 1),
   fun b e => if e = 1 then b else F.nan, fun _ => F.nan⟩

/-- Training series `[1, 2, 3, 4]` (4 rows, hence tested non-normal). -/
def dataC2A : Series ℚ := [(0, some 1), (1, some 2), (2, some 3), (3, some 4)]

/-- New series the clone is evaluated on. -/
def dataC2B : Series ℚ := [(0, some 1), (1, some 2)]

/-- Configuration `iqr(transform="boxcox")` with defaults otherwise. -/
def cfgC2 : GaussianCfg := ⟨3 / 2, .both, .both, .ignore, 1 / 1000, some .boxcox⟩

/-- Series of 9 rows (more than 8, so the normality test runs). -/
def dataC5 : Series ℚ :=
  [(0, some 0), (1, some 1), (2, some 2), (3, some 3), (4, some 4),
   (5, some 5), (6, some 6), (7, some 7), (8, some 8)]

/-- Configuration `iqr(transform="boxcox")` with defaults otherwise;
with `extId.pval = 1 > 0.001` the series is tested normal. -/
def cfgC5 : GaussianCfg := ⟨3 / 2, .both, .both, .ignore, 1 / 1000, some .boxcox⟩

/-- Constant series `[5, 5]`. -/
def dataC3 : Series ℚ := [(0, some 5), (1, some 5)]

/-- Training series for the keycollision counterexample. -/
def dataC4A : Series String := [(0, some "aa")]

/-- New series whose single fingerprint key is unseen in `dataC4A`. -/
def dataC4B : Series String := [(0, some "bb")]

/-- Series of two missing values. -/
def dataC1 : Series ℚ := [(0, none), (1, none)]

/-- Series with one fingerprint group {"Aa", "aa", "aa"} whose
canonical representative is "aa". -/
def dataC4W : Series String := [(0, some "Aa"), (1, some "aa"), (2, some "aa")]

/-- The detector state produced by `iqr(transform="boxcox")` fitted on
`dataC5` with the external collaborators `extId` (tested normal, so no
lambda is stored and the quartiles come from the raw data). -/
def recC5 : IqrDetector :=
  ⟨cfgC5, true, none, F.fin 2, F.fin 6, F.fin 4, F.fin (-4), F.fin 12⟩

/-! ## Helper lemmas -/

/-- A mask-style flagged index whose mask rejects missing values only
contains keys of non-missing rows. -/
theorem index_mem_nonMissing {α : Type} (p : Option α → Bool) (hp : p none = false)
    (data : Series α) (k : ℕ)
    (h : k ∈ (data.filter fun r => p r.2).map Prod.fst) :
    ∃ v, (k, some v) ∈ data := by
  obtain ⟨r, hr, hk⟩ := List.mem_map.1 h
  have hr2 := List.mem_filter.1 hr
  rcases r with ⟨k0, v⟩
  cases v with
  | none =>
    rw [hp] at hr2
    exact absurd hr2.2 (by simp)
  | some v =>
    cases hk
    exact ⟨v, hr2.1⟩

/-- A mask-style flagged index whose mask rejects missing values is a
subset of the keys of the non-missing rows. -/
theorem index_subset_nonMissingKeys {α : Type} (p : Option α → Bool)
    (hp : p none = false) (data : Series α) (k : ℕ)
    (h : k ∈ (data.filter fun r => p r.2).map Prod.fst) :
    k ∈ seriesKeys (data.filter fun r => r.2.isSome) := by
  obtain ⟨r, hr, hk⟩ := List.mem_map.1 h
  have hr2 := List.mem_filter.1 hr
  rcases r with ⟨k0, v⟩
  cases v with
  | none =>
    rw [hp] at hr2
    exact absurd hr2.2 (by simp)
  | some v =>
    cases hk
    exact List.mem_map.2 ⟨(k0, some v),
      List.mem_filter.2 ⟨hr2.1, rfl⟩, rfl⟩

/-- Two rows of a series with no duplicate key and the same key hold
the same value. -/
theorem nodupKeys_value_eq {α : Type} {data : Series α}
    (hnd : (seriesKeys data).Nodup) {k : ℕ} {v w : Option α}
    (hv : (k, v) ∈ data) (hw : (k, w) ∈ data) : v = w := by
  induction data with
  | nil => cases hv
  | cons r rest ih =>
    rcases List.nodup_cons.1 hnd with ⟨hhead, htail⟩
    rcases List.mem_cons.1 hv with hv1 | hv1 <;>
      rcases List.mem_cons.1 hw with hw1 | hw1
    · rw [← hv1] at hw1
      exact (congrArg Prod.snd hw1.symm : v = w)
    · exact absurd (List.mem_map_of_mem Prod.fst hw1)
        (by rw [← hv1] at hhead; exact hhead)
    · exact absurd (List.mem_map_of_mem Prod.fst hv1)
        (by rw [← hw1] at hhead; exact hhead)
    · exact ih htail hv1 hw1

/-- Membership of a given row key in a mask-style flagged index is the
mask of that row's value, provided row keys are unique. -/
theorem mem_maskIndex_iff {α : Type} (p : Option α → Bool) (data : Series α)
    (hnd : (seriesKeys data).Nodup) {k : ℕ} {v : Option α}
    (hm : (k, v) ∈ data) :
    (k ∈ (data.filter fun r => p r.2).map Prod.fst) ↔ p v = true := by
  constructor
  · intro h
    obtain ⟨r, hr, hk⟩ := List.mem_map.1 h
    have hr2 := List.mem_filter.1 hr
    rcases r with ⟨k0, w⟩
    cases hk
    have := nodupKeys_value_eq hnd hm hr2.1
    rw [this]
    exact hr2.2
  · intro h
    exact List.mem_map.2 ⟨(k, v), List.mem_filter.2 ⟨hm, h⟩, rfl⟩

/-- Membership after folding the first-occurrence deduplication step. -/
theorem mem_dedupFirst_aux {α : Type} [DecidableEq α] (l : List α) :
    ∀ (acc : List α) (a : α),
      (a ∈ l.foldl (fun acc x => if x ∈ acc then acc else acc ++ [x]) acc) ↔
        a ∈ acc ∨ a ∈ l := by
  induction l with
  | nil => intro acc a; simp
  | cons x xs ih =>
    intro acc a
    rw [List.foldl_cons, ih]
    by_cases hx : x ∈ acc
    · rw [if_pos hx]
      constructor
      · rintro (h | h)
        · exact Or.inl h
        · exact Or.inr (List.mem_cons_of_mem _ h)
      · rintro (h | h)
        · exact Or.inl h
        · rcases List.mem_cons.1 h with rfl | h2
          · exact Or.inl hx
          · exact Or.inr h2
    · rw [if_neg hx]
      constructor
      · rintro (h | h)
        · rcases List.mem_append.1 h with h1 | h1
          · exact Or.inl h1
          · simp only [List.mem_singleton] at h1
            subst h1
            exact Or.inr (List.mem_cons_self _ _)
        · exact Or.inr (List.mem_cons_of_mem _ h)
      · rintro (h | h)
        · exact Or.inl (List.mem_append.2 (Or.inl h))
        · rcases List.mem_cons.1 h with rfl | h2
          · exact Or.inl (List.mem_append.2 (Or.inr (by simp)))
          · exact Or.inr h2

/-- Deduplication preserves membership. -/
theorem mem_dedupFirst {α : Type} [DecidableEq α] {l : List α} {a : α} :
    a ∈ dedupFirst l ↔ a ∈ l := by
  unfold dedupFirst
  rw [mem_dedupFirst_aux]
  simp

/-- Looking up a key in an association list built by mapping a function
over a key list returns the function's value. -/
theorem lookup_mapped (keys : List String) (f : String → String) (k : String)
    (hk : k ∈ keys) :
    lookupKey (keys.map fun x => (x, f x)) k = some (f k) := by
  induction keys with
  | nil => cases hk
  | cons x xs ih =>
    simp only [List.map_cons, lookupKey]
    by_cases hx : x = k
    · rw [if_pos hx, hx]
    · rw [if_neg hx]
      refine ih ?_
      rcases List.mem_cons.1 hk with rfl | h
      · exact absurd rfl hx
      · exact h

/-- In fit mode the stored dictionary contains every row's fingerprint
key, mapped to the canonical representative of its group. -/
theorem dict_lookup_eq {data : Series String} {k : ℕ} {v : Option String}
    (hm : (k, v) ∈ data) :
    lookupKey (dictKeys data) (fingerprint v) =
      some (canonForKey data (fingerprint v)) := by
  unfold dictKeys
  apply lookup_mapped
  rw [mem_dedupFirst]
  exact List.mem_map.2 ⟨(fingerprint v, origStr v),
    List.mem_map.2 ⟨(k, v), hm, rfl⟩, rfl⟩

/-- When `lower >= upper` is false and neither bound is `nan`, the IEEE
strict comparison `lower < upper` holds. -/
theorem flt_of_not_fge : ∀ {l u : F}, l ≠ F.nan → u ≠ F.nan →
    F.fge l u = false → F.flt l u = true := by
  intro l u hl hu hg
  cases l <;> cases u <;>
    first
    | exact absurd rfl hl
    | exact absurd rfl hu
    | simp_all [F.fge, F.fle, F.flt]

/-- Inversion of a successful gaussian base fit: how `isnormal` and the
fitted transform pair were computed, and which validations passed. -/
theorem gaussianBaseFit_ok {cfg : GaussianCfg} {vals : List (Option ℚ)} {ext : Ext}
    {r : Bool × Option (List (Option ℚ) × ℚ)}
    (h : gaussianBaseFit cfg vals ext = .ok r) :
    r.1 = (if 8 < vals.length then decide (cfg.pvalue < ext.pval) else false)
  ∧ r.2 = (match cfg.transform, r.1 with
           | some t, false => some (applyTransform ext t vals)
           | _, _ => none)
  ∧ ¬ cfg.pvalue ≤ 0 ∧ ¬ cfg.threshold < 0
  ∧ ¬ (r.1 = false ∧ cfg.normaltest = .error) := by
  simp only [gaussianBaseFit] at h
  split at h
  · simp_all [BoundedDetector.check, F.fge, F.fle]
  · split at h
    · exact Except.noConfusion h
    · next h1 =>
      split at h
      · exact Except.noConfusion h
      · next h2 =>
        split at h
        · next h3 =>
          split at h
          · exact Except.noConfusion h
          · next h4 =>
            injection h with h5
            subst h5
            exact ⟨by rw [if_pos h3], rfl, h1, h2, h4⟩
        · next h3 =>
          split at h
          · exact Except.noConfusion h
          · next h4 =>
            injection h with h5
            subst h5
            exact ⟨by rw [if_neg h3], rfl, h1, h2, h4⟩

/-- Characterization of an `iqr` fit with no transform requested and a
non-`error` normality policy: quartiles come from the raw series and
the bounds are the plain whisker formulas; only `isnormal` depends on
the external test. -/
theorem iqrFit_transform_none (data : Series ℚ) (cfg : GaussianCfg) (ext : Ext)
    (ht : cfg.transform = none) (hp : ¬ cfg.pvalue ≤ 0)
    (hth : ¬ cfg.threshold < 0) (hn : cfg.normaltest ≠ .error) :
    IqrDetector.mkFit data cfg ext =
      .ok ⟨cfg,
          (decide (8 < data.length) && decide (cfg.pvalue < ext.pval)),
          none,
          quantileLinear ((data.map Prod.snd).filterMap id) (1 / 4),
          quantileLinear ((data.map Prod.snd).filterMap id) (3 / 4),
          F.sub (quantileLinear ((data.map Prod.snd).filterMap id) (3 / 4))
            (quantileLinear ((data.map Prod.snd).filterMap id) (1 / 4)),
          F.sub (quantileLinear ((data.map Prod.snd).filterMap id) (1 / 4))
            (F.mul (F.fin cfg.threshold)
              (F.sub (quantileLinear ((data.map Prod.snd).filterMap id) (3 / 4))
                (quantileLinear ((data.map Prod.snd).filterMap id) (1 / 4)))),
          F.add (quantileLinear ((data.map Prod.snd).filterMap id) (3 / 4))
            (F.mul (F.fin cfg.threshold)
              (F.sub (quantileLinear ((data.map Prod.snd).filterMap id) (3 / 4))
                (quantileLinear ((data.map Prod.snd).filterMap id) (1 / 4))))⟩ := by
  unfold IqrDetector.mkFit gaussianBaseFit BoundedDetector.check
  rw [ht]
  simp [hp, hth, hn, List.length_map]
  rfl

/-- Inversion of a successful `iqr` fit: the stored `isnormal`, lambda,
quartiles and bounds in terms of the inputs. Stated for the fitted
detector record. -/
theorem iqrFit_ok {data : Series ℚ} {cfg : GaussianCfg} {ext : Ext}
    {d : IqrDetector} (h : IqrDetector.mkFit data cfg ext = .ok d) :
    d.cfg = cfg
  ∧ d.isnormal = (if 8 < data.length then decide (cfg.pvalue < ext.pval) else false)
  ∧ ¬ cfg.pvalue ≤ 0 ∧ ¬ cfg.threshold < 0
  ∧ ¬ (d.isnormal = false ∧ cfg.normaltest = .error)
  ∧ (d.isnormal = true →
      d.lmbda = none
      ∧ d.q25 = quantileLinear ((data.map Prod.snd).filterMap id) (1 / 4)
      ∧ d.q75 = quantileLinear ((data.map Prod.snd).filterMap id) (3 / 4)
      ∧ d.iqrv = F.sub d.q75 d.q25
      ∧ d.lowerRaw = F.sub d.q25 (F.mul (F.fin cfg.threshold) d.iqrv)
      ∧ d.upperRaw = F.add d.q75 (F.mul (F.fin cfg.threshold) d.iqrv))
  ∧ (cfg.transform = none →
      d.lmbda = none
      ∧ d.iqrv = F.sub d.q75 d.q25
      ∧ d.lowerRaw = F.sub d.q25 (F.mul (F.fin cfg.threshold) d.iqrv)
      ∧ d.upperRaw = F.add d.q75 (F.mul (F.fin cfg.threshold) d.iqrv)) := by
  simp only [IqrDetector.mkFit] at h
  split at h
  · exact Except.noConfusion h
  · next r heq =>
    obtain ⟨f1, f2, f3, f4, f5⟩ := gaussianBaseFit_ok heq
    injection h with h5
    subst h5
    rw [List.length_map] at f1
    refine ⟨rfl, f1, f3, f4, f5, ?_, ?_⟩
    · intro hnorm
      replace hnorm : r.1 = true := hnorm
      have hv : (if cfg.transform = none ∨ r.1 = true
          then data.map Prod.snd
          else (Option.map Prod.fst r.2).getD []) = data.map Prod.snd :=
        if_pos (Or.inr hnorm)
      have hng : ¬ (cfg.transform ≠ none ∧ r.1 = false) := by simp [hnorm]
      refine ⟨?_, ?_, ?_, rfl, ?_, ?_⟩
      · show Option.map Prod.snd r.2 = none
        rw [f2, hnorm]
        cases cfg.transform <;> rfl
      · show quantileLinear ((if cfg.transform = none ∨ r.1 = true
            then data.map Prod.snd
            else (Option.map Prod.fst r.2).getD []).filterMap id) (1 / 4) = _
        rw [hv]
      · show quantileLinear ((if cfg.transform = none ∨ r.1 = true
            then data.map Prod.snd
            else (Option.map Prod.fst r.2).getD []).filterMap id) (3 / 4) = _
        rw [hv]
      · show (if cfg.transform ≠ none ∧ r.1 = false then _ else _) = _
        rw [if_neg hng]
      · show (if cfg.transform ≠ none ∧ r.1 = false then _ else _) = _
        rw [if_neg hng]
    · intro ht
      have hng : ¬ (cfg.transform ≠ none ∧ r.1 = false) := by simp [ht]
      refine ⟨?_, rfl, ?_, ?_⟩
      · show Option.map Prod.snd r.2 = none
        rw [f2, ht]
        cases hb : r.1 <;> rfl
      · show (if cfg.transform ≠ none ∧ r.1 = false then _ else _) = _
        rw [if_neg hng]
      · show (if cfg.transform ≠ none ∧ r.1 = false then _ else _) = _
        rw [if_neg hng]

/-! ## Claims -/

/-- C6: the `iqr` detector with threshold 2.0 fitted on
`[0, 0, 0, 100, -1, 1, -1, 1, -6, 6]` computes `Q25 = -0.75`,
`Q75 = 1.0`, `IQR = 1.75`, `lower = -4.25`, `upper = 4.5` and flags
exactly the rows holding 100, -6 and 6 (keys 3, 8, 9) — for every
behaviour of the external normality test. -/
theorem claim_C6 (ext : Ext) :
    (IqrDetector.mkFit dataC6 cfgC6 ext).map
      (fun d => (d.q25, d.q75, d.iqrv, IqrDetector.lower d, IqrDetector.upper d,
                 IqrDetector.index d dataC6))
    = .ok (F.fin (-(3 / 4)), F.fin 1, F.fin (7 / 4), F.fin (-(17 / 4)),
           F.fin (9 / 2), [3, 8, 9]) := by
  rw [iqrFit_transform_none dataC6 cfgC6 ext rfl (by decide) (by decide) (by decide)]
  rfl

/-- C7: the `bounded` detector with `lower=2`, `upper=4` and the default
`inclusive="both"` over the series `[1, 2, 100, 4]` flags exactly the
rows with keys 0 and 2 (values 1 and 100), and for every detector state
`not_error()` is the exact pointwise logical complement of
`is_error()`. -/
theorem claim_C7 :
    (BoundedDetector.mkFit (F.fin 2) (F.fin 4) .both).map
      (fun d => BoundedDetector.index d dataC7) = .ok [0, 2]
  ∧ ∀ s : DetState, s.not_error = s.is_error.map fun p => (p.1, !p.2) := by
  constructor
  · rfl
  · intro s
    unfold DetState.not_error DetState.is_error
    rw [List.map_map]
    rfl

/-- C9: neither the multivariate `outliers` detector nor the
`by_category` detector can be constructed in clone mode — passing any
existing detector object raises `ValueError` — while fit-mode
construction succeeds and fits freshly (the `eps` default is computed
for the given data). -/
theorem claim_C9 :
    (∀ (d : DetState) (eps : Option F) (ms : ℤ) (sm : F),
        outliersMk (some d) eps ms sm = .error .valueError)
  ∧ (∀ (d : DetState) (m : String), byCategoryMk (some d) m = .error .valueError)
  ∧ (∀ (e : F) (ms : ℤ) (sm : F), outliersMk none (some e) ms sm = .ok ⟨e, ms⟩)
  ∧ (∀ (ms : ℤ) (sm : F), outliersMk none none ms sm = .ok ⟨sm, ms⟩)
  ∧ (∀ (m : String), byCategoryMk none m = .ok ⟨m⟩) :=
  ⟨fun _ _ _ _ => rfl, fun _ _ => rfl, fun _ _ _ => rfl, fun _ _ => rfl,
   fun _ => rfl⟩

/-- C10: `has_errors()` holds iff `n_errors > 0` iff the flagged index
is non-empty, given that the flagged index is a subset of the queried
object's row keys — a subset property the mask-style indexes satisfy
(shown here for the `bounded` family). -/
theorem claim_C10 (s : DetState) (hsub : ∀ k ∈ s.flagged, k ∈ s.objKeys) :
    (s.has_errors = true ↔ 0 < s.n_errors)
  ∧ (0 < s.n_errors ↔ s.flagged ≠ [])
  ∧ ∀ (d : BoundedDetector) (data : Series ℚ) (k : ℕ),
      k ∈ BoundedDetector.index d data → k ∈ seriesKeys data := by
  refine ⟨?_, ?_, ?_⟩
  · unfold DetState.has_errors DetState.is_error DetState.n_errors
    rw [List.any_eq_true]
    constructor
    · rintro ⟨p, hp, hp2⟩
      obtain ⟨k, _, rfl⟩ := List.mem_map.1 hp
      have hkf : k ∈ s.flagged := by simpa using hp2
      exact List.length_pos.2 (List.ne_nil_of_mem hkf)
    · intro hlen
      obtain ⟨k, hk⟩ := List.exists_mem_of_length_pos hlen
      exact ⟨(k, s.flagged.contains k), List.mem_map_of_mem _ (hsub k hk),
        by simpa using hk⟩
  · exact List.length_pos
  · intro d data k h
    obtain ⟨r, hr, hk⟩ := List.mem_map.1 h
    exact hk ▸ List.mem_map_of_mem Prod.fst (List.mem_of_mem_filter hr)

/-- C10 witness at a concrete detector state. -/
theorem claim_C10_witness :
    (DetState.has_errors ⟨[0, 1], [1]⟩ = true ↔
      0 < DetState.n_errors ⟨[0, 1], [1]⟩)
  ∧ (0 < DetState.n_errors ⟨[0, 1], [1]⟩ ↔ ([1] : List ℕ) ≠ []) :=
  ⟨(claim_C10 ⟨[0, 1], [1]⟩ (by decide)).1,
   (claim_C10 ⟨[0, 1], [1]⟩ (by decide)).2.1⟩

/-- C1 counterexample: the `duplicated` detector on a series of two
missing values flags row 1, whose value is missing — so missing values
are not "never flagged ... for every detector". -/
theorem claim_C1_counterexample :
    duplicatedIndex dataC1 = [1] ∧ (1, (none : Option ℚ)) ∈ dataC1 := by
  exact ⟨rfl, by simp [dataC1]⟩

/-- C1 corrected: the bound-style, `value` and `keycollision` detectors
never flag a missing row, because each of them applies its own
missing-value override; the exclusion is per-algorithm, not uniform
(no such override exists in `duplicated` or `custom`). -/
theorem claim_C1_amended :
    (∀ (d : BoundedDetector) (data : Series ℚ) (k : ℕ),
        k ∈ BoundedDetector.index d data →
          k ∈ seriesKeys (data.filter fun r => r.2.isSome))
  ∧ (∀ (d : ValueDetector) (data : Series PyVal) (k : ℕ),
        k ∈ ValueDetector.index d data →
          k ∈ seriesKeys (data.filter fun r => r.2.isSome))
  ∧ (∀ (dict : List (String × String)) (data : Series String) (k : ℕ),
        k ∈ kcIndex dict data →
          k ∈ seriesKeys (data.filter fun r => r.2.isSome)) :=
  ⟨fun d data k h =>
      index_subset_nonMissingKeys (BoundedDetector.mask d) rfl data k h,
   fun d data k h =>
      index_subset_nonMissingKeys (ValueDetector.mask d) rfl data k h,
   fun dict data k h =>
      index_subset_nonMissingKeys (kcMask dict) rfl data k h⟩

/-- C1 amended witness: a concrete flagged key of a concrete `bounded`
detector indeed belongs to a non-missing row. -/
theorem claim_C1_amended_witness :
    (0 : ℕ) ∈ seriesKeys (([(0, some (5 : ℚ))] : Series ℚ).filter
      fun r => r.2.isSome) :=
  claim_C1_amended.1 ⟨F.fin 2, F.fin 4, Inclusive.both, Sided.both⟩
    [(0, some 5)] 0 (by decide)

/-- C3 counterexample: the `quantiles` detector on the constant series
`[5, 5]` with fractions 0.25 and 0.75 constructs successfully, and its
resolved bounds are equal (`lower = upper = 5`) — construction neither
fails nor leaves `lower < upper`. -/
theorem claim_C3_counterexample :
    QuantilesDetector.mkFit dataC3 (1 / 4) (3 / 4) .both =
      .ok ⟨1 / 4, 3 / 4, ⟨F.fin 5, F.fin 5, .both, .both⟩⟩ := by decide

/-- C3 corrected: only the `bounded` detector validates its resolved
bounds: with non-`nan` user bounds, construction fails exactly when
`lower >= upper` (and the bounds are stored unchanged, never swapped),
and after a successful construction `lower < upper` holds; the fitted
detectors (`quantiles`, and the gaussian family) never validate their
resolved bounds, which can be equal. -/
theorem claim_C3_amended (l u : F) (inc : Inclusive)
    (hl : l ≠ F.nan) (hu : u ≠ F.nan) :
    ((∃ e, BoundedDetector.mkFit l u inc = .error e) ↔ F.fge l u = true)
  ∧ (∀ d, BoundedDetector.mkFit l u inc = .ok d →
      F.flt d.lowerRaw d.upperRaw = true ∧ d.lowerRaw = l ∧ d.upperRaw = u) := by
  constructor
  · constructor
    · rintro ⟨e, he⟩
      by_cases hg : F.fge l u = true
      · exact hg
      · unfold BoundedDetector.mkFit BoundedDetector.check at he
        rw [Bool.not_eq_true] at hg
        rw [hg] at he
        cases he
    · intro hg
      refine ⟨.valueError, ?_⟩
      unfold BoundedDetector.mkFit BoundedDetector.check
      rw [hg]
      rfl
  · intro d hd
    by_cases hg : F.fge l u = true
    · unfold BoundedDetector.mkFit BoundedDetector.check at hd
      rw [hg] at hd
      cases hd
    · unfold BoundedDetector.mkFit BoundedDetector.check at hd
      rw [Bool.not_eq_true] at hg
      rw [hg] at hd
      cases hd
      exact ⟨flt_of_not_fge hl hu hg, rfl, rfl⟩

/-- C3 amended witness: the concrete construction with bounds 2 < 4
succeeds and stores the bounds unswapped with `lower < upper`. -/
theorem claim_C3_amended_witness :
    F.flt (BoundedDetector.lowerRaw ⟨F.fin 2, F.fin 4, .both, .both⟩)
        (BoundedDetector.upperRaw ⟨F.fin 2, F.fin 4, .both, .both⟩) = true
  ∧ BoundedDetector.lowerRaw ⟨F.fin 2, F.fin 4, .both, .both⟩ = F.fin 2
  ∧ BoundedDetector.upperRaw ⟨F.fin 2, F.fin 4, .both, .both⟩ = F.fin 4 :=
  (claim_C3_amended (F.fin 2) (F.fin 4) .both (by decide) (by decide)).2
    ⟨F.fin 2, F.fin 4, .both, .both⟩ (by decide)

/-- C8 (code bug): the `value` detector with `check_type=True` and
`forbidden=False`, configured with the float 5.0, flags the row holding
the float 5.0 — an element equal to the configured value with an
identical type — because the implementation compares with the CPython
`is` operator and `Series.apply` boxes float64 entries to fresh
objects. The claim (and the class docstring) say such a row is not
flagged. -/
theorem claim_C8_code_divergence :
    (ValueDetector.mkFit (some (.pfloat 5)) true false).map
      (fun d => ValueDetector.index d [(0, some (.pfloat 5))]) = .ok [0]
  ∧ sameTypeEq (.pfloat 5) (.pfloat 5) = true :=
  ⟨rfl, rfl⟩

/-- C4 counterexample: a `keycollision` detector fitted on `["aa"]` and
cloned over `["bb"]` flags row 0 although the fingerprint key of "bb"
is absent from the copied mapping — unseen keys are flagged, not
"simply never flagged". The last conjunct records that the source
pipeline also strips a leading two-character-plus-colon prefix, a step
absent from the claimed key algorithm. -/
theorem claim_C4_counterexample :
    kcIndex (dictKeys dataC4A) dataC4B = [0]
  ∧ lookupKey (dictKeys dataC4A) (fingerprint (some "bb")) = none
  ∧ fingerprint (some "Mr:Smith") = "smith" := by
  refine ⟨by decide, by decide, by decide⟩

/-- C2 counterexample: an `iqr` detector fitted with
`transform="boxcox"` on `[1, 2, 3, 4]` (tested non-normal, 4 rows) and
cloned over `[1, 2]` reports `lower = -1/2` while the source reports
`lower = 1/2`: the clone recomputes the bounds from the copied
quartiles but never applies the analytic inverse (its guard tests the
constructor argument `transform`, which is `None` in a clone call), so
a fitted parameter differs between source and clone. The external
Box-Cox fit is instantiated as the identity with lambda 1, on which
the analytic inverse is exact. -/
theorem claim_C2_counterexample :
    ((IqrDetector.mkFit dataC2A cfgC2 extId).bind fun d =>
        (IqrDetector.mkClone dataC2B d extId).map fun c =>
          (IqrDetector.lower d, IqrDetector.lower c))
      = .ok (F.fin (1 / 2), F.fin (-(1 / 2)))
  ∧ F.fin ((1 : ℚ) / 2) ≠ F.fin (-(1 / 2)) := by
  exact ⟨by decide, by decide⟩

/-- C5 counterexample: an `iqr` fit with `transform="boxcox"` on a
series of 9 rows whose normality test passes (external p-value 1)
stores no transform lambda at all (`lmbda = none`): the transform is
not "computed for reporting purposes" on normal data. -/
theorem claim_C5_counterexample :
    cfgC5.transform = some Transform.boxcox
  ∧ (IqrDetector.mkFit dataC5 cfgC5 extId).map (fun d => (d.isnormal, d.lmbda))
      = .ok (true, none) :=
  ⟨rfl, by decide⟩

/-- C5 corrected: in a gaussian (`iqr`) fit the normality test is run
only when the series has more than 8 rows (otherwise the series counts
as non-normal); and when the data is tested normal, the requested power
transform is not fitted at all — no lambda is stored — and the
quartiles and bounds are computed on the untransformed data. -/
theorem claim_C5_amended (data : Series ℚ) (cfg : GaussianCfg) (ext : Ext)
    (d : IqrDetector) (h : IqrDetector.mkFit data cfg ext = .ok d) :
    (data.length ≤ 8 → d.isnormal = false)
  ∧ (8 < data.length → d.isnormal = decide (cfg.pvalue < ext.pval))
  ∧ (d.isnormal = true →
      d.lmbda = none
      ∧ d.q25 = quantileLinear ((data.map Prod.snd).filterMap id) (1 / 4)
      ∧ d.q75 = quantileLinear ((data.map Prod.snd).filterMap id) (3 / 4)
      ∧ d.lowerRaw = F.sub d.q25 (F.mul (F.fin cfg.threshold) d.iqrv)
      ∧ d.upperRaw = F.add d.q75 (F.mul (F.fin cfg.threshold) d.iqrv)) := by
  obtain ⟨-, f1, -, -, -, f6, -⟩ := iqrFit_ok h
  refine ⟨?_, ?_, ?_⟩
  · intro hle
    rw [f1, if_neg (by omega)]
  · intro hlt
    rw [f1, if_pos hlt]
  · intro hn
    obtain ⟨a, b, c, -, e, f⟩ := f6 hn
    exact ⟨a, b, c, e, f⟩

/-- C5 amended witness at the concrete normal fit of
`claim_C5_counterexample`: the test ran (9 rows) and, the data being
normal, no lambda was stored and the quartiles and bounds come from the
raw data. -/
theorem claim_C5_amended_witness :
    recC5.isnormal = decide (cfgC5.pvalue < extId.pval)
  ∧ (recC5.lmbda = none
     ∧ recC5.q25 = quantileLinear ((dataC5.map Prod.snd).filterMap id) (1 / 4)
     ∧ recC5.q75 = quantileLinear ((dataC5.map Prod.snd).filterMap id) (3 / 4)
     ∧ recC5.lowerRaw = F.sub recC5.q25 (F.mul (F.fin cfgC5.threshold) recC5.iqrv)
     ∧ recC5.upperRaw = F.add recC5.q75 (F.mul (F.fin cfgC5.threshold) recC5.iqrv)) :=
  ⟨(claim_C5_amended dataC5 cfgC5 extId recC5 (by decide)).2.1 (by decide),
   (claim_C5_amended dataC5 cfgC5 extId recC5 (by decide)).2.2 rfl⟩

/-- C2 corrected: clone construction copies every configured and fitted
parameter verbatim from the source — shown for `bounded` (all four
parameters, through the `sided`-adjusted properties), for `quantiles`
(fractions, bounds, inclusion, side) and for `iqr`: when the source
applied no power transform, cloning a fitted `iqr` detector over any
new series succeeds and reproduces the source detector state exactly
(so only the evaluated flagged index can differ). When the source did
apply a transform, the clone re-fits the transform on the new data and
skips the bound inversion (see the counterexample), so the copied-state
guarantee is limited to the untransformed case. -/
theorem claim_C2_amended :
    (∀ (src d : BoundedDetector), BoundedDetector.mkClone src = .ok d →
        BoundedDetector.lower d = BoundedDetector.lower src
      ∧ BoundedDetector.upper d = BoundedDetector.upper src
      ∧ d.inclusive = src.inclusive ∧ d.sided = src.sided)
  ∧ (∀ (src d : QuantilesDetector), QuantilesDetector.mkClone src = .ok d →
        d.lowerq = src.lowerq ∧ d.upperq = src.upperq
      ∧ BoundedDetector.lower d.bnd = BoundedDetector.lower src.bnd
      ∧ BoundedDetector.upper d.bnd = BoundedDetector.upper src.bnd
      ∧ d.bnd.inclusive = src.bnd.inclusive ∧ d.bnd.sided = src.bnd.sided)
  ∧ (∀ (dataA dataB : Series ℚ) (cfg : GaussianCfg) (ext ext2 : Ext)
        (d : IqrDetector),
        IqrDetector.mkFit dataA cfg ext = .ok d → cfg.transform = none →
        IqrDetector.mkClone dataB d ext2 = .ok d) := by
  refine ⟨?_, ?_, ?_⟩
  · intro src d h
    simp only [BoundedDetector.mkClone] at h
    split at h
    · exact Except.noConfusion h
    · injection h with h1
      subst h1
      refine ⟨?_, ?_, rfl, rfl⟩
      · by_cases hs : src.sided = .right <;>
          simp [BoundedDetector.lower, hs]
      · by_cases hs : src.sided = .left <;>
          simp [BoundedDetector.upper, hs]
  · intro src d h
    simp only [QuantilesDetector.mkClone] at h
    split at h
    · exact Except.noConfusion h
    · split at h
      · exact Except.noConfusion h
      · injection h with h1
        subst h1
        refine ⟨rfl, rfl, ?_, ?_, rfl, rfl⟩
        · by_cases hs : src.bnd.sided = .right <;>
            simp [BoundedDetector.lower, hs]
        · by_cases hs : src.bnd.sided = .left <;>
            simp [BoundedDetector.upper, hs]
  · intro dataA dataB cfg ext ext2 d h ht
    obtain ⟨hcfg, -, -, f4, f5, -, f7⟩ := iqrFit_ok h
    obtain ⟨hl, hiqr, hlow, hup⟩ := f7 ht
    obtain ⟨c1, i1, l1, q1, q3, v1, lo1, up1⟩ := d
    replace hcfg : c1 = cfg := hcfg
    replace hl : l1 = none := hl
    replace hiqr : v1 = F.sub q3 q1 := hiqr
    subst hcfg hl hiqr
    replace hlow : lo1 = F.sub q1 (F.mul (F.fin c1.threshold) (F.sub q3 q1)) := hlow
    replace hup : up1 = F.add q3 (F.mul (F.fin c1.threshold) (F.sub q3 q1)) := hup
    subst hlow hup
    replace f4 : ¬ c1.threshold < 0 := f4
    replace f5 : ¬ (i1 = false ∧ c1.normaltest = .error) := f5
    simp only [IqrDetector.mkClone]
    split
    · next heq => exact absurd heq (by simp [BoundedDetector.check, F.fge, F.fle])
    · rw [if_neg f4, if_neg f5, ht]
      cases i1 <;> rfl

/-- C2 amended witness: cloning the concrete transform-free `iqr` fit
of claim C6 over a new series reproduces it exactly. -/
theorem claim_C2_amended_witness :
    IqrDetector.mkClone dataC2B
      ⟨cfgC6, true, none, F.fin (-(3 / 4)), F.fin 1, F.fin (7 / 4),
        F.fin (-(17 / 4)), F.fin (9 / 2)⟩ extId =
      .ok ⟨cfgC6, true, none, F.fin (-(3 / 4)), F.fin 1, F.fin (7 / 4),
        F.fin (-(17 / 4)), F.fin (9 / 2)⟩ :=
  claim_C2_amended.2.2 dataC6 dataC2B cfgC6 extId extId
    ⟨cfgC6, true, none, F.fin (-(3 / 4)), F.fin 1, F.fin (7 / 4),
      F.fin (-(17 / 4)), F.fin (9 / 2)⟩
    (by decide) rfl

/-- C4 corrected: a row of a fitted `keycollision` detector is flagged
iff its value differs from the canonical representative (most frequent
original value) of its fingerprint key — where the key is computed by
the source pipeline, which additionally replaces a leading
two-character-plus-colon prefix before lowercasing, stripping
diacritics, removing non-letters, deduplicating, sorting and rejoining
the tokens. In clone mode the mapping is copied from the source, and a
row whose key is absent from the copied mapping is always flagged (its
value differs from the `NaN` the map lookup yields), never "simply
never flagged"; a row whose key is present is flagged iff its value
differs from that key's canonical value. Row keys are assumed unique
(pandas default RangeIndex). -/
theorem claim_C4_amended :
    (∀ (data : Series String), (seriesKeys data).Nodup →
      ∀ (k : ℕ) (s : String), (k, some s) ∈ data →
        (k ∈ kcFitIndex data ↔ s ≠ canonForKey data (fingerprint (some s))))
  ∧ (∀ (src data : Series String), (seriesKeys data).Nodup →
      ∀ (k : ℕ) (s : String), (k, some s) ∈ data →
        ((lookupKey (dictKeys src) (fingerprint (some s)) = none →
            k ∈ kcIndex (dictKeys src) data)
        ∧ ∀ c, lookupKey (dictKeys src) (fingerprint (some s)) = some c →
            (k ∈ kcIndex (dictKeys src) data ↔ s ≠ c))) := by
  constructor
  · intro data hnd k s hm
    unfold kcFitIndex kcIndex
    rw [mem_maskIndex_iff (kcMask (dictKeys data)) data hnd hm]
    show (match lookupKey (dictKeys data) (fingerprint (some s)) with
          | none => true
          | some c => decide (s ≠ c)) = true ↔ _
    rw [dict_lookup_eq hm]
    simp
  · intro src data hnd k s hm
    constructor
    · intro hnone
      refine (mem_maskIndex_iff (kcMask (dictKeys src)) data hnd hm).2 ?_
      show (match lookupKey (dictKeys src) (fingerprint (some s)) with
            | none => true
            | some c => decide (s ≠ c)) = true
      rw [hnone]
    · intro c hc
      unfold kcIndex
      rw [mem_maskIndex_iff (kcMask (dictKeys src)) data hnd hm]
      show (match lookupKey (dictKeys src) (fingerprint (some s)) with
            | none => true
            | some c => decide (s ≠ c)) = true ↔ _
      rw [hc]
      simp

/-- C4 amended witness at a concrete fitted series: row 0 ("Aa") is
flagged iff it differs from the canonical "aa". -/
theorem claim_C4_amended_witness :
    (0 : ℕ) ∈ kcFitIndex dataC4W ↔
      "Aa" ≠ canonForKey dataC4W (fingerprint (some "Aa")) :=
  claim_C4_amended.1 dataC4W (by decide) 0 "Aa" (by decide)

end PdCleaner
